import Mathlib

/-!
Verification of the gh-api-mcp repository content access layer
(src/mcp_servers/servers/gh-api-mcp/src/gh_api_mcp/__init__.py).

The Python module is shallowly embedded below.  JSON values produced by
json.loads are modelled by the inductive JVal; Python runtime exceptions by
PyExn; the external command executor (run_gh_api_command, i.e. subprocess
running the gh CLI) is modelled by a GhResult response value passed in
explicitly, together with a trace of the issued command argument lists.
The Python standard-library routines that the module calls (str.splitlines,
str.lstrip, base64.b64decode per CPython 3.11, bytes.decode with replacement,
json.dumps with default options) are embedded as executable Lean functions.
-/

namespace GhApi

/-- JSON values as produced by json.loads.  Numbers are restricted to
integers: no code path in the embedded module depends on floating-point
values, and floats are outside the scope of this development. -/
inductive JVal where
  | null : JVal
  | bool : Bool → JVal
  | int : Int → JVal
  | str : String → JVal
  | arr : List JVal → JVal
  | obj : List (String × JVal) → JVal

/-- Kinds of Python exceptions the embedded code can raise or catch.  Only
the binascii.Error message text is tracked (it is interpolated into a
returned error string); other kinds carry no payload. -/
inductive PyExn where
  | typeError : PyExn
  | attributeError : PyExn
  | valueError : PyExn
  | binasciiError : String → PyExn
  | otherExn : PyExn

/-- First-match association lookup: key access in a parsed JSON object
(json.loads never yields duplicate keys, so first-match is exact). -/
def lookupKey : List (String × JVal) → String → Option JVal
  | [], _ => none
  | (k, v) :: kvs, key => if k = key then some v else lookupKey kvs key

/-- Python dict.get(key, default) on a JSON value: AttributeError unless the
value is a dict.  A JSON null value is returned as JVal.null, which is the
same Python object (None) as the default of dict.get. -/
def pyDictGet (d : JVal) (key : String) (dflt : JVal) : Except PyExn JVal :=
  match d with
  | .obj kvs => .ok ((lookupKey kvs key).getD dflt)
  | _ => .error .attributeError

/-- Whether a serialized JSON object value has the given key. -/
def hasKey (v : JVal) (key : String) : Bool :=
  match v with
  | .obj kvs => (lookupKey kvs key).isSome
  | _ => false

/-- Python truthiness of a JSON value (None, False, 0, "", [] and the empty
dict are falsy). -/
def pyTruthy : JVal → Bool
  | .null => false
  | .bool b => b
  | .int n => n ≠ 0
  | .str s => ¬ s.isEmpty
  | .arr xs => ¬ xs.isEmpty
  | .obj kvs => ¬ kvs.isEmpty

mutual
/-- Structural equality of JSON values, the model of Python == between
values parsed from JSON.  (Python additionally identifies True == 1; no
code path in the module compares a bool against a number.) -/
def jvalEq : JVal → JVal → Bool
  | .null, .null => true
  | .bool a, .bool b => a = b
  | .int a, .int b => a = b
  | .str a, .str b => a = b
  | .arr a, .arr b => jvalEqList a b
  | .obj a, .obj b => jvalEqKvs a b
  | _, _ => false

def jvalEqList : List JVal → List JVal → Bool
  | [], [] => true
  | a :: as_, b :: bs => jvalEq a b && jvalEqList as_ bs
  | _, _ => false

def jvalEqKvs : List (String × JVal) → List (String × JVal) → Bool
  | [], [] => true
  | (ka, va) :: as_, (kb, vb) :: bs => ka = kb && jvalEq va vb && jvalEqKvs as_ bs
  | _, _ => false
end

/-- Python membership test, key in d: key lookup for a dict, element
equality for a list, substring test for a string, TypeError otherwise.
This models the expression key in data with key a string. -/
def pyContains (d : JVal) (key : String) : Except PyExn Bool :=
  match d with
  | .obj kvs => .ok (lookupKey kvs key).isSome
  | .arr xs => .ok (xs.any (fun x => jvalEq x (.str key)))
  | .str s => .ok (decide (key.toList <:+: s.toList))
  | _ => .error .typeError

/-- Python subscript d[key] with a string key: the value for a dict (the
callers guard with pyContains, so the key is present), TypeError for every
other JSON value. -/
def pySubscript (d : JVal) (key : String) : Except PyExn JVal :=
  match d with
  | .obj kvs => match lookupKey kvs key with
    | some v => .ok v
    | none => .error .otherExn
  | _ => .error .typeError

/-- Python iteration over a JSON value, as a list of the yielded values:
a list yields its elements, a string its characters as 1-character strings,
a dict its keys; other values raise TypeError. -/
def pyIterate (d : JVal) : Except PyExn (List JVal) :=
  match d with
  | .arr xs => .ok xs
  | .str s => .ok (s.toList.map (fun c => .str (String.singleton c)))
  | .obj kvs => .ok (kvs.map (fun kv => .str kv.1))
  | _ => .error .typeError

/-! json.dumps with its default options (ensure_ascii true, separators
", " and ": ", insertion order preserved). -/

/-- Lowercase hexadecimal digit. -/
def hexDigit (n : Nat) : Char :=
  if n < 10 then Char.ofNat (48 + n) else Char.ofNat (87 + n)

/-- Four lowercase hexadecimal digits, as in a \uXXXX escape. -/
def hex4 (n : Nat) : String :=
  String.mk [hexDigit (n / 4096 % 16), hexDigit (n / 256 % 16),
             hexDigit (n / 16 % 16), hexDigit (n % 16)]

/-- The \uXXXX escape json.dumps emits for a code point outside 0x20-0x7e,
using a surrogate pair above 0xffff. -/
def jsonUEscape (n : Nat) : String :=
  if n < 0x10000 then "\\u" ++ hex4 n
  else
    let v := n - 0x10000
    "\\u" ++ hex4 (0xd800 + v / 0x400) ++ "\\u" ++ hex4 (0xdc00 + v % 0x400)

/-- Escape one character as json.dumps (ensure_ascii=True) does inside a
string literal. -/
def jsonEscapeChar (c : Char) : String :=
  if c = '"' then "\\\""
  else if c = '\\' then "\\\\"
  else if c = '\n' then "\\n"
  else if c = '\r' then "\\r"
  else if c = '\t' then "\\t"
  else if c = Char.ofNat 8 then "\\b"
  else if c = Char.ofNat 12 then "\\f"
  else if c.toNat < 0x20 ∨ 0x7e < c.toNat then jsonUEscape c.toNat
  else String.singleton c

/-- Escape a whole string for a json.dumps string literal. -/
def jsonEscapeStr (s : String) : String :=
  String.join (s.toList.map jsonEscapeChar)

mutual
/-- json.dumps with default options. -/
def dumps : JVal → String
  | .null => "null"
  | .bool true => "true"
  | .bool false => "false"
  | .int n => toString n
  | .str s => "\"" ++ jsonEscapeStr s ++ "\""
  | .arr xs => "[" ++ dumpsList xs ++ "]"
  | .obj kvs => "\x7b" ++ dumpsKvs kvs ++ "\x7d"

def dumpsList : List JVal → String
  | [] => ""
  | [x] => dumps x
  | x :: y :: xs => dumps x ++ ", " ++ dumpsList (y :: xs)

def dumpsKvs : List (String × JVal) → String
  | [] => ""
  | [(k, v)] => "\"" ++ jsonEscapeStr k ++ "\": " ++ dumps v
  | (k, v) :: kv2 :: kvs =>
    "\"" ++ jsonEscapeStr k ++ "\": " ++ dumps v ++ ", " ++ dumpsKvs (kv2 :: kvs)
end

/-! Python str() as used by f-string interpolation in the module.  Scalars
are rendered exactly; for containers Python falls back to repr, embedded
below with one simplification that no theorem of this development touches:
repr of a string keeps code points at 0x80 and above verbatim, whereas
CPython escapes the unprintable ones. -/

/-- Two-digit lowercase hexadecimal, as in a \xXX escape of repr. -/
def hex2 (n : Nat) : String :=
  String.mk [hexDigit (n / 16 % 16), hexDigit (n % 16)]

/-- Escape one character of a Python string repr, given the quote
character chosen for the literal. -/
def pyReprChar (q : Char) (c : Char) : String :=
  if c = '\\' then "\\\\"
  else if c = q then "\\" ++ String.singleton q
  else if c = '\n' then "\\n"
  else if c = '\r' then "\\r"
  else if c = '\t' then "\\t"
  else if c.toNat < 0x20 ∨ c.toNat = 0x7f then "\\x" ++ hex2 c.toNat
  else String.singleton c

/-- Python repr of a string: single quotes, switching to double quotes when
the string contains a single quote but no double quote. -/
def pyReprStr (s : String) : String :=
  let q : Char :=
    if s.toList.contains '\x27' ∧ ¬ s.toList.contains '"' then '"' else '\x27'
  String.singleton q ++ String.join (s.toList.map (pyReprChar q)) ++ String.singleton q

mutual
/-- Python repr of a JSON value (i.e. of the Python object json.loads
produced for it). -/
def pyRepr : JVal → String
  | .null => "None"
  | .bool true => "True"
  | .bool false => "False"
  | .int n => toString n
  | .str s => pyReprStr s
  | .arr xs => "[" ++ pyReprList xs ++ "]"
  | .obj kvs => "\x7b" ++ pyReprKvs kvs ++ "\x7d"

def pyReprList : List JVal → String
  | [] => ""
  | [x] => pyRepr x
  | x :: y :: xs => pyRepr x ++ ", " ++ pyReprList (y :: xs)

def pyReprKvs : List (String × JVal) → String
  | [] => ""
  | [(k, v)] => pyReprStr k ++ ": " ++ pyRepr v
  | (k, v) :: kv2 :: kvs => pyReprStr k ++ ": " ++ pyRepr v ++ ", " ++ pyReprKvs (kv2 :: kvs)
end

/-- Python str() of a JSON value, as interpolated by an f-string. -/
def pyStr : JVal → String
  | .null => "None"
  | .bool true => "True"
  | .bool false => "False"
  | .int n => toString n
  | .str s => s
  | .arr xs => pyRepr (.arr xs)
  | .obj kvs => pyRepr (.obj kvs)

/-! str.splitlines and the join over it used at the base64 normalization
step, plus str.lstrip("/") used by the tree path filter. -/

/-- The characters str.splitlines treats as line boundaries. -/
def isLineBoundary (c : Char) : Bool :=
  c = '\n' ∨ c = '\r' ∨ c = Char.ofNat 0x0b ∨ c = Char.ofNat 0x0c ∨
  c = Char.ofNat 0x1c ∨ c = Char.ofNat 0x1d ∨ c = Char.ofNat 0x1e ∨
  c = Char.ofNat 0x85 ∨ c = Char.ofNat 0x2028 ∨ c = Char.ofNat 0x2029

/-- str.splitlines worker: splits at each line boundary, treating a
carriage return followed by a newline as a single boundary, and drops a
trailing boundary without producing a final empty line. -/
def splitlinesAux : List Char → List Char → List (List Char)
  | [], acc => if acc.isEmpty then [] else [acc.reverse]
  | '\r' :: '\n' :: cs, acc => acc.reverse :: splitlinesAux cs []
  | c :: cs, acc =>
    if c = '\r' then acc.reverse :: splitlinesAux cs []
    else if isLineBoundary c then acc.reverse :: splitlinesAux cs []
    else splitlinesAux cs (c :: acc)

/-- str.splitlines. -/
def pySplitlines (s : String) : List String :=
  (splitlinesAux s.toList []).map (fun cs => String.mk cs)

/-- The expression "".join(s.splitlines()) from the module. -/
def joinSplitlines (s : String) : String :=
  String.join (pySplitlines s)

/-- str.lstrip("/"): removes every leading slash. -/
def pyLstripSlash (s : String) : String :=
  String.mk (s.toList.dropWhile (fun c => c = '/'))

/-- str.startswith, as a character-list prefix test. -/
def pyStartsWith (s pfx : String) : Bool := List.isPrefixOf pfx.toList s.toList

/-! base64.b64decode as in CPython 3.11: the str argument is converted to
ASCII bytes (ValueError on a non-ASCII character), then handed to
binascii.a2b_base64 with strict_mode equal to the validate flag. -/

/-- Value of a base64 alphabet character, none for every other character. -/
def b64CharVal (c : Char) : Option Nat :=
  if 65 ≤ c.toNat ∧ c.toNat ≤ 90 then some (c.toNat - 65)
  else if 97 ≤ c.toNat ∧ c.toNat ≤ 122 then some (c.toNat - 71)
  else if 48 ≤ c.toNat ∧ c.toNat ≤ 57 then some (c.toNat + 4)
  else if c = '+' then some 62
  else if c = '/' then some 63
  else none

/-- Main loop of binascii.a2b_base64 (CPython 3.11 Modules/binascii.c),
over the remaining characters, the quad position, the leftover bits of the
previous character, the count of pending padding characters, and whether a
padding character has been seen.  In strict mode a non-alphabet character,
data after padding, or excess data after a completed final quad is an
error; otherwise non-alphabet characters are skipped.  The binascii.Error
message for a data-character count of 1 mod 4 elides the numeric count
CPython interpolates. -/
def a2bLoop (strict : Bool) : List Char → Nat → Nat → Nat → Bool → Except PyExn (List Nat)
  | [], qp, _, _, _ =>
    if qp = 0 then .ok []
    else if qp = 1 then
      .error (.binasciiError
        "Invalid base64-encoded string: number of data characters cannot be 1 more than a multiple of 4")
    else .error (.binasciiError "Incorrect padding")
  | c :: cs, qp, left, pads, ps =>
    if c = '=' then
      if 2 ≤ qp then
        if 4 ≤ qp + (pads + 1) then
          if strict ∧ cs ≠ [] then .error (.binasciiError "Excess data after padding")
          else .ok []
        else a2bLoop strict cs qp left (pads + 1) true
      else a2bLoop strict cs qp left pads true
    else
      match b64CharVal c with
      | none =>
        if strict then .error (.binasciiError "Only base64 data is allowed")
        else a2bLoop strict cs qp left pads ps
      | some v =>
        if strict ∧ ps then .error (.binasciiError "Discontinuous padding not allowed")
        else match qp with
          | 0 => a2bLoop strict cs 1 v 0 ps
          | 1 => (a2bLoop strict cs 2 (v % 16) 0 ps).map (fun bs => (left * 4 + v / 16) :: bs)
          | 2 => (a2bLoop strict cs 3 (v % 4) 0 ps).map (fun bs => (left * 16 + v / 4) :: bs)
          | _ => (a2bLoop strict cs 0 0 0 ps).map (fun bs => (left * 64 + v) :: bs)

/-- base64.b64decode(s, validate) on a str argument, CPython 3.11:
ASCII conversion, the strict-mode leading-padding check, then the
binascii.a2b_base64 loop. -/
def b64decodePy (validate : Bool) (s : String) : Except PyExn (List Nat) :=
  if ¬ s.toList.all (fun c => c.toNat ≤ 127) then .error .valueError
  else if validate ∧ s.toList.head? = some '=' then
    .error (.binasciiError "Leading padding not allowed")
  else a2bLoop validate s.toList 0 0 0 false

/-- Character of the base64 alphabet for a 6-bit value. -/
def b64AlphaChar (n : Nat) : Char :=
  if n < 26 then Char.ofNat (65 + n)
  else if n < 52 then Char.ofNat (97 + (n - 26))
  else if n < 62 then Char.ofNat (48 + (n - 52))
  else if n = 62 then '+' else '/'

/-- base64.b64encode (RFC 4648 section 4, no line wrapping) of a byte
sequence, as a character list. -/
def b64encodeBytes : List Nat → List Char
  | a :: b :: c :: rest =>
    b64AlphaChar (a / 4) :: b64AlphaChar (a % 4 * 16 + b / 16) ::
    b64AlphaChar (b % 16 * 4 + c / 64) :: b64AlphaChar (c % 64) :: b64encodeBytes rest
  | [a, b] => [b64AlphaChar (a / 4), b64AlphaChar (a % 4 * 16 + b / 16), b64AlphaChar (b % 16 * 4), '=']
  | [a] => [b64AlphaChar (a / 4), b64AlphaChar (a % 4 * 16), '=', '=']
  | [] => []

/-- base64.b64encode of a byte sequence, as a string. -/
def b64encodeStr (bs : List Nat) : String := String.mk (b64encodeBytes bs)

/-! bytes.decode("utf-8", errors="replace"): each maximal subpart of an
ill-formed sequence becomes one U+FFFD replacement character. -/

/-- The U+FFFD replacement character. -/
def replChar : Char := Char.ofNat 0xfffd

/-- Whether a byte is a UTF-8 continuation byte. -/
def isCont (b : Nat) : Bool := decide (0x80 ≤ b ∧ b ≤ 0xbf)

/-- Lower bound of the second byte of a 3-byte sequence (0xa0 after 0xe0,
excluding overlong forms). -/
def cont3Lo (b : Nat) : Nat := if b = 0xe0 then 0xa0 else 0x80

/-- Upper bound of the second byte of a 3-byte sequence (0x9f after 0xed,
excluding surrogates). -/
def cont3Hi (b : Nat) : Nat := if b = 0xed then 0x9f else 0xbf

/-- Lower bound of the second byte of a 4-byte sequence (0x90 after 0xf0,
excluding overlong forms). -/
def cont4Lo (b : Nat) : Nat := if b = 0xf0 then 0x90 else 0x80

/-- Upper bound of the second byte of a 4-byte sequence (0x8f after 0xf4,
capping at U+10FFFF). -/
def cont4Hi (b : Nat) : Nat := if b = 0xf4 then 0x8f else 0xbf

/-- One UTF-8 decoding step with replacement, on a leading byte and the
bytes after it: a well-formed sequence yields its code point and the count
of continuation bytes consumed; otherwise one replacement character is
yielded together with the count of bytes consumed beyond the first (so
decoding resumes at the first offending byte). -/
def utf8Step (b : Nat) (bs : List Nat) : Char × Nat :=
  if b < 0x80 then (Char.ofNat b, 0)
  else if 0xc2 ≤ b ∧ b ≤ 0xdf then
    match bs with
    | b2 :: _ =>
      if isCont b2 then (Char.ofNat ((b - 0xc0) * 64 + (b2 - 0x80)), 1)
      else (replChar, 0)
    | [] => (replChar, 0)
  else if 0xe0 ≤ b ∧ b ≤ 0xef then
    match bs with
    | b2 :: bs2 =>
      if cont3Lo b ≤ b2 ∧ b2 ≤ cont3Hi b then
        match bs2 with
        | b3 :: _ =>
          if isCont b3 then
            (Char.ofNat ((b - 0xe0) * 4096 + (b2 - 0x80) * 64 + (b3 - 0x80)), 2)
          else (replChar, 1)
        | [] => (replChar, 1)
      else (replChar, 0)
    | [] => (replChar, 0)
  else if 0xf0 ≤ b ∧ b ≤ 0xf4 then
    match bs with
    | b2 :: bs2 =>
      if cont4Lo b ≤ b2 ∧ b2 ≤ cont4Hi b then
        match bs2 with
        | b3 :: bs3 =>
          if isCont b3 then
            match bs3 with
            | b4 :: _ =>
              if isCont b4 then
                (Char.ofNat ((b - 0xf0) * 262144 + (b2 - 0x80) * 4096 +
                  (b3 - 0x80) * 64 + (b4 - 0x80)), 3)
              else (replChar, 2)
            | [] => (replChar, 2)
          else (replChar, 1)
        | [] => (replChar, 1)
      else (replChar, 0)
    | [] => (replChar, 0)
  else (replChar, 0)

/-- UTF-8 decoding with replacement, structurally recursing on a fuel
that bounds the number of decoded characters; each step consumes at least
one byte, so a fuel of the byte count is always sufficient. -/
def utf8CharsGo (fuel : Nat) (bs : List Nat) : List Char :=
  match fuel, bs with
  | _, [] => []
  | 0, _ :: _ => []
  | fuel + 1, b :: bs =>
    let s := utf8Step b bs
    s.1 :: utf8CharsGo fuel (bs.drop s.2)

/-- UTF-8 decoding with replacement over a whole byte list. -/
def utf8Chars (bs : List Nat) : List Char := utf8CharsGo bs.length bs

/-- bytes.decode("utf-8", errors="replace"). -/
def utf8DecodeReplace (bs : List Nat) : String := String.mk (utf8Chars bs)

/-! The embedded module.  A command is the argument list handed to
run_gh_api_command (the arguments after "gh api").  The outcome of one
external invocation is a GhResult passed in explicitly; json.loads on the
captured standard output is standard-library behaviour outside the module
and its outcome is carried alongside the raw bytes.  Each embedded
operation also returns the trace of run_gh_api_command invocations it
performed. -/

/-- Argument list of one run_gh_api_command invocation. -/
abbrev Cmd := List String

/-- Outcome of json.loads on captured standard output: a parsed value, a
json.JSONDecodeError (carrying its str rendering, as interpolated by the
f-string of the handler), or any other exception (e.g. a decoding error on
non-UTF-8 bytes), which no handler in list_tree or read_file catches. -/
inductive LoadsOut where
  | val : JVal → LoadsOut
  | decodeError : String → LoadsOut
  | fatal : LoadsOut

/-- Captured output of one successful external invocation. -/
structure GhOut where
  stdoutBytes : List Nat
  loads : LoadsOut

/-- Result of one run_gh_api_command invocation with check=True: a
subprocess.CalledProcessError carrying the f-string rendering of the
captured standard error, or success. -/
inductive GhResult where
  | failure : String → GhResult
  | success : GhOut → GhResult

/-- str(e) for the exceptions rendered by an f-string in the module.  Only
a binascii.Error or the base64 ASCII-conversion ValueError can reach such
a rendering; the remaining kinds render as an untracked message. -/
def pyExnStr : PyExn → String
  | .binasciiError m => m
  | .valueError => "string argument should contain only ASCII characters"
  | _ => ""

/-- Command issued by _get_default_branch. -/
def repoMetaCmd (owner repo : String) : Cmd := ["repos/" ++ owner ++ "/" ++ repo]

/-- _get_default_branch: on execution failure return None; otherwise parse
the output and return repo_data.get("default_branch"), any exception (JSON
decode failure, other parse exception, attribute error on a non-dict body)
being caught by the bare except Exception and yielding None.  A null
default_branch is Python None, i.e. likewise none. -/
def getDefaultBranch (dbResp : GhResult) : Option JVal :=
  match dbResp with
  | .failure _ => none
  | .success out =>
    match out.loads with
    | .val v =>
      match v with
      | .obj kvs =>
        match lookupKey kvs "default_branch" with
        | some .null => none
        | some w => some w
        | none => none
      | _ => none
    | .decodeError _ => none
    | .fatal => none

/-- Whether list_tree consults the resolver: the ref parameter is falsy
(None or the empty string). -/
def refNeedsResolve : Option String → Bool
  | none => true
  | some s => s.isEmpty

/-- The expression _get_default_branch(owner, repo) or "main". -/
def branchOrMain (dbResp : GhResult) : JVal :=
  match getDefaultBranch dbResp with
  | some v => if pyTruthy v then v else .str "main"
  | none => .str "main"

/-- The resolved ref of a list_tree call (lines 62-64): the supplied ref
when truthy, else the default branch, else the literal "main". -/
def resolveRefVal (ref : Option String) (dbResp : GhResult) : JVal :=
  match ref with
  | some s => if s.isEmpty then branchOrMain dbResp else .str s
  | none => branchOrMain dbResp

/-- Command issued by the list_tree tree fetch for a resolved ref. -/
def treesCmd (owner repo : String) (rr : JVal) : Cmd :=
  ["repos/" ++ owner ++ "/" ++ repo ++ "/git/trees/" ++ pyStr rr,
   "--method", "GET", "-F", "recursive=1"]

/-- The path-filter comprehension of list_tree (line 87): keeps entries e
with e.get("path", "").startswith(pfx); a non-string path value raises
AttributeError at the startswith call. -/
def filterPathList (pfx : String) : List JVal → Except PyExn (List JVal)
  | [] => .ok []
  | e :: es =>
    match pyDictGet e "path" (.str "") with
    | .error ex => .error ex
    | .ok v =>
      match v with
      | .str s =>
        match filterPathList pfx es with
        | .error ex => .error ex
        | .ok rest => .ok (if pyStartsWith s pfx then e :: rest else rest)
      | _ => .error .attributeError

/-- The kind-filter comprehension of list_tree (lines 90 and 92): keeps
entries e with e.get("type") == t. -/
def filterTypeList (t : String) : List JVal → Except PyExn (List JVal)
  | [] => .ok []
  | e :: es =>
    match pyDictGet e "type" .null with
    | .error ex => .error ex
    | .ok v =>
      match filterTypeList t es with
      | .error ex => .error ex
      | .ok rest => .ok (if jvalEq v (.str t) then e :: rest else rest)

/-- Projection of one entry (lines 95-110): a tree-type entry maps to a
two-key object with "type": "directory" and no size key; every other entry
maps to a three-key object with "type": "file" and "bytes": e.get("size"). -/
def projectEntry (e : JVal) : Except PyExn JVal :=
  match pyDictGet e "type" .null with
  | .error ex => .error ex
  | .ok t =>
    if jvalEq t (.str "tree") then
      match pyDictGet e "path" .null with
      | .error ex => .error ex
      | .ok p => .ok (.obj [("path", p), ("type", .str "directory")])
    else
      match pyDictGet e "path" .null, pyDictGet e "size" .null with
      | .error ex, _ => .error ex
      | _, .error ex => .error ex
      | .ok p, .ok s => .ok (.obj [("path", p), ("type", .str "file"), ("bytes", s)])

/-- The projection loop over all surviving entries. -/
def projectList : List JVal → Except PyExn (List JVal)
  | [] => .ok []
  | e :: es =>
    match projectEntry e with
    | .error ex => .error ex
    | .ok v =>
      match projectList es with
      | .error ex => .error ex
      | .ok vs => .ok (v :: vs)

/-- The path-filter stage (lines 85-87): applied only when the path
parameter is truthy, with every leading slash of the filter stripped. -/
def pathFilterStep (path : Option String) (es : List JVal) : Except PyExn (List JVal) :=
  match path with
  | some s => if s.isEmpty then .ok es else filterPathList (pyLstripSlash s) es
  | none => .ok es

/-- The kind-filter stage (lines 89-92): include "files" keeps blob-type
entries, "dirs" keeps tree-type entries, and any other value keeps
everything. -/
def kindFilterStep (inc : String) (es : List JVal) : Except PyExn (List JVal) :=
  if inc = "files" then filterTypeList "blob" es
  else if inc = "dirs" then filterTypeList "tree" es
  else .ok es

/-- Filtering and projection applied to the tree value of the response
body (lines 83-110): materialize the entries by iteration, apply the path
filter, the kind filter, then the projection. -/
def listTreeEntries (tv : JVal) (path : Option String) (inc : String) :
    Except PyExn (List JVal) :=
  match pyIterate tv with
  | .error ex => .error ex
  | .ok es0 =>
    match pathFilterStep path es0 with
    | .error ex => .error ex
    | .ok es1 =>
      match kindFilterStep inc es1 with
      | .error ex => .error ex
      | .ok es2 => projectList es2

/-- The structured error payload returned when the decoded body has no
tree key (line 81). -/
def noTreeObj (data : JVal) : JVal :=
  .obj [("error", .str "No tree in response"), ("raw", data)]

/-- list_tree handling of a successfully parsed body (lines 80-110): the
inner error channel carries the strings returned early (the missing-tree
case returns a serialized structured payload, a deliberately different
shape), the inner ok the projected entry list. -/
def listTreeFromData (data : JVal) (path : Option String) (inc : String) :
    Except PyExn (Except String (List JVal)) :=
  match pyContains data "tree" with
  | .error ex => .error ex
  | .ok false => .ok (.error (dumps (noTreeObj data)))
  | .ok true =>
    match pySubscript data "tree" with
    | .error ex => .error ex
    | .ok tv =>
      match listTreeEntries tv path inc with
      | .error ex => .error ex
      | .ok mapped => .ok (.ok mapped)

/-- The response object of a successful list_tree (lines 112-116). -/
def treeResponseObj (rr : JVal) (mapped : List JVal) : JVal :=
  .obj [("ref", rr), ("count", .int (mapped.length : Int)), ("entries", .arr mapped)]

/-- list_tree after the authentication gate (lines 47-117), as a function
of the two possible external responses: the default-branch metadata fetch
(consulted only when ref is falsy) and the tree fetch. -/
def listTreeRun (owner repo : String) (ref path : Option String) (inc : String)
    (dbResp treeResp : GhResult) : Except PyExn String × List Cmd :=
  let rr := resolveRefVal ref dbResp
  let trace := (if refNeedsResolve ref then [repoMetaCmd owner repo] else []) ++
    [treesCmd owner repo rr]
  match treeResp with
  | .failure st => (.ok ("Error running gh command: " ++ st), trace)
  | .success out =>
    match out.loads with
    | .decodeError m => (.ok ("Error decoding JSON: " ++ m), trace)
    | .fatal => (.error .otherExn, trace)
    | .val data =>
      (match listTreeFromData data path inc with
       | .error ex => .error ex
       | .ok (.error s) => .ok s
       | .ok (.ok mapped) => .ok (dumps (treeResponseObj rr mapped)), trace)

/-- The require_auth wrapper around list_tree: on a failed authentication
probe the fixed error string is returned with no run_gh_api_command
invocation. -/
def listTreeTool (authed : Bool) (owner repo : String) (ref path : Option String)
    (inc : String) (dbResp treeResp : GhResult) : Except PyExn String × List Cmd :=
  if authed then listTreeRun owner repo ref path inc dbResp treeResp
  else (.ok "Error: User is not authenticated", [])

/-- The read_file path normalization (lines 137-138). -/
def normalizePath (p : String) : String := if pyStartsWith p "/" then p else "/" ++ p

/-- The contents api path of read_file, with ?ref= appended when ref is
truthy. -/
def contentsApiPath (owner repo path : String) (ref : Option String) : String :=
  let base := "repos/" ++ owner ++ "/" ++ repo ++ "/contents/" ++ normalizePath path
  match ref with
  | some r => if r.isEmpty then base else base ++ "?ref=" ++ r
  | none => base

/-- The raw media type header argument. -/
def acceptRawHeader : String := "Accept: application/vnd.github.raw"

/-- Command of a raw-media-type fetch of the given api path or URL. -/
def rawFetchCmd (target : String) : Cmd := ["-H", acceptRawHeader, target]

/-- The two-stage base64 decode of read_file (strict, then lenient on a
binascii.Error) followed by the permissive text decode, lines 193-205.  A
non-binascii exception from the strict attempt (the ASCII-conversion
ValueError) is caught by neither handler and propagates; any exception
from the lenient attempt is caught by the bare except Exception and
rendered into the returned error string. -/
def decodeContentPipeline (c : String) : Except PyExn String :=
  let nb := joinSplitlines c
  match b64decodePy true nb with
  | .ok bs => .ok (utf8DecodeReplace bs)
  | .error (.binasciiError _) =>
    match b64decodePy false nb with
    | .ok bs => .ok (utf8DecodeReplace bs)
    | .error ex => .ok ("Error decoding base64: " ++ pyExnStr ex)
  | .error ex => .error ex

/-- read_file handling of a successfully parsed body in structured mode
(lines 169-207), returning the result and the commands issued by the
fallback raw fetch, as a function of the download-URL fetch response. -/
def readFileFromData (data : JVal) (dlResp : GhResult) :
    Except PyExn String × List Cmd :=
  match pyDictGet data "content" .null with
  | .error ex => (.error ex, [])
  | .ok contentV =>
    match contentV with
    | .null =>
      match pyDictGet data "download_url" .null with
      | .error ex => (.error ex, [])
      | .ok dl =>
        if pyTruthy dl then
          match dl with
          | .str u =>
            (match dlResp with
             | .failure st => .ok ("Error fetching raw content: " ++ st)
             | .success out => .ok (utf8DecodeReplace out.stdoutBytes),
             [rawFetchCmd u])
          | _ => (.error .typeError, [])
        else (.ok "Error: No 'content' key found in response", [])
    | _ =>
      match pyDictGet data "encoding" .null with
      | .error ex => (.error ex, [])
      | .ok enc =>
        if ¬ jvalEq enc .null ∧ ¬ jvalEq enc (.str "base64") then
          (.ok ("Error: Unexpected encoding '" ++ pyStr enc ++ "'"), [])
        else
          match contentV with
          | .str c => (decodeContentPipeline c, [])
          | _ => (.error .attributeError, [])

/-- read_file after the authentication gate (lines 122-207), as a function
of the two possible external responses: the contents fetch and, in
structured mode, the optional download-url fallback fetch. -/
def readFileRun (owner repo path : String) (ref : Option String) (raw : Bool)
    (mainResp dlResp : GhResult) : Except PyExn String × List Cmd :=
  let api := contentsApiPath owner repo path ref
  if raw then
    (match mainResp with
     | .failure st => .ok ("Error running gh command: " ++ st)
     | .success out => .ok (utf8DecodeReplace out.stdoutBytes),
     [rawFetchCmd api])
  else
    match mainResp with
    | .failure st => (.ok ("Error running gh command: " ++ st), [[api]])
    | .success out =>
      match out.loads with
      | .decodeError m => (.ok ("Error decoding JSON: " ++ m), [[api]])
      | .fatal => (.error .otherExn, [[api]])
      | .val data =>
        let r := readFileFromData data dlResp
        (r.1, [api] :: r.2)

/-- The require_auth wrapper around read_file. -/
def readFileTool (authed : Bool) (owner repo path : String) (ref : Option String)
    (raw : Bool) (mainResp dlResp : GhResult) : Except PyExn String × List Cmd :=
  if authed then readFileRun owner repo path ref raw mainResp dlResp
  else (.ok "Error: User is not authenticated", [])

/-! Auxiliary lemmas. -/

/-- jvalEq against a string literal is propositional equality. -/
lemma jvalEq_str_iff (v : JVal) (s : String) : jvalEq v (.str s) = true ↔ v = .str s := by
  cases v <;> simp [jvalEq]

/-- jvalEq against null is propositional equality. -/
lemma jvalEq_null_iff (v : JVal) : jvalEq v .null = true ↔ v = .null := by
  cases v <;> simp [jvalEq]

/-- dict.get on an object evaluates to the defaulted lookup. -/
lemma pyDictGet_obj (kvs : List (String × JVal)) (k : String) (d : JVal) :
    pyDictGet (.obj kvs) k d = .ok ((lookupKey kvs k).getD d) := rfl

/-- Data of a fold-based string join. -/
lemma join_foldl_data (l : List String) (acc : String) :
    (l.foldl (· ++ ·) acc).data = acc.data ++ (l.map String.data).flatten := by
  induction l generalizing acc with
  | nil => simp
  | cons x xs ih => simp [List.foldl_cons, ih, String.data_append]

/-- Data of String.join. -/
lemma string_join_data (l : List String) :
    (String.join l).data = (l.map String.data).flatten := by
  simpa [String.join] using join_foldl_data l ""

/-- splitlinesAux joined back together is the input minus its line
boundaries (with the pending accumulator in front). -/
lemma splitlinesAux_join (cs : List Char) (acc : List Char) :
    (splitlinesAux cs acc).flatten =
      acc.reverse ++ cs.filter (fun c => ¬ isLineBoundary c) := by
  induction cs, acc using splitlinesAux.induct with
  | case1 acc h => simp_all [splitlinesAux, List.isEmpty_iff]
  | case2 acc h => simp_all [splitlinesAux, List.isEmpty_iff]
  | case3 cs acc ih => simp [splitlinesAux, ih, isLineBoundary]
  | case4 cs acc hne ih => simp_all [splitlinesAux, isLineBoundary]
  | case5 c cs acc hne hr hb ih => simp_all [splitlinesAux]
  | case6 c cs acc hne hr hb ih => simp_all [splitlinesAux]

/-- The join over splitlines removes exactly the line-boundary characters. -/
lemma joinSplitlines_eq_filter (s : String) :
    joinSplitlines s = String.mk (s.toList.filter (fun c => ¬ isLineBoundary c)) := by
  apply String.ext
  rw [joinSplitlines, pySplitlines, string_join_data]
  simpa [List.map_map, Function.comp_def] using splitlinesAux_join s.toList []

/-- The kind-filter stage keeps everything for unrecognized values. -/
lemma kindFilterStep_other (inc : String) (h1 : inc ≠ "files") (h2 : inc ≠ "dirs")
    (es : List JVal) : kindFilterStep inc es = kindFilterStep "all" es := by
  unfold kindFilterStep
  simp only [if_neg h1, if_neg h2,
    if_neg (show ¬ ("all" : String) = "files" by decide),
    if_neg (show ¬ ("all" : String) = "dirs" by decide)]

/-- The include branch is a no-op for unrecognized values. -/
lemma listTreeEntries_inc_all (inc : String) (h1 : inc ≠ "files") (h2 : inc ≠ "dirs")
    (tv : JVal) (path : Option String) :
    listTreeEntries tv path inc = listTreeEntries tv path "all" := by
  unfold listTreeEntries
  simp only [kindFilterStep_other inc h1 h2]

/-- The include branch is a no-op for unrecognized values, at the parsed
body level. -/
lemma listTreeFromData_inc_all (inc : String) (h1 : inc ≠ "files") (h2 : inc ≠ "dirs")
    (data : JVal) (path : Option String) :
    listTreeFromData data path inc = listTreeFromData data path "all" := by
  unfold listTreeFromData
  simp only [listTreeEntries_inc_all inc h1 h2]

/-! The claims. -/

/-- C5: when the authentication status probe reports an invalid session,
list_tree and read_file both return exactly the string
"Error: User is not authenticated" and issue zero run_gh_api_command
invocations. -/
theorem auth_failure_short_circuits (owner repo p : String) (ref path : Option String)
    (inc : String) (raw : Bool) (r1 r2 r3 r4 : GhResult) :
    listTreeTool false owner repo ref path inc r1 r2 =
      (.ok "Error: User is not authenticated", ([] : List Cmd)) ∧
    readFileTool false owner repo p ref raw r3 r4 =
      (.ok "Error: User is not authenticated", ([] : List Cmd)) :=
  ⟨rfl, rfl⟩

/-- C10: for every include value other than "files" and "dirs", list_tree
applies no kind filter and behaves exactly as include = "all"; an
unrecognized include value is never reported as an error. -/
theorem include_other_values_behave_as_all (authed : Bool) (owner repo : String)
    (ref path : Option String) (inc : String) (dbResp treeResp : GhResult)
    (h1 : inc ≠ "files") (h2 : inc ≠ "dirs") :
    listTreeTool authed owner repo ref path inc dbResp treeResp =
      listTreeTool authed owner repo ref path "all" dbResp treeResp := by
  unfold listTreeTool listTreeRun
  simp only [listTreeFromData_inc_all inc h1 h2]

/-- Witness for C10 at the include value "everything". -/
theorem include_other_values_witness :
    ("everything" ≠ "files") ∧ ("everything" ≠ "dirs") ∧
    listTreeTool true "o" "r" (some "m") none "everything" (.failure "")
        (.success ⟨[], .val (.obj [("tree", .arr [])])⟩) =
      listTreeTool true "o" "r" (some "m") none "all" (.failure "")
        (.success ⟨[], .val (.obj [("tree", .arr [])])⟩) :=
  ⟨by decide, by decide,
    include_other_values_behave_as_all true "o" "r" (some "m") none "everything"
      (.failure "") (.success ⟨[], .val (.obj [("tree", .arr [])])⟩)
      (by decide) (by decide)⟩

/-- C7: in structured mode, when the parsed body has no content field (or
a null one): a truthy string download URL triggers exactly one fallback
raw-media-type fetch, whose execution failure yields the error string
embedding the captured standard-error text and whose success yields the
permissive text decode of its bytes; with no truthy download URL the fixed
no-content error string is returned and no fetch is issued. -/
theorem read_file_no_content_fallback (kvs : List (String × JVal)) (dlResp : GhResult)
    (hc : (lookupKey kvs "content").getD .null = .null) :
    (∀ u : String, (lookupKey kvs "download_url").getD .null = .str u → u ≠ "" →
      readFileFromData (.obj kvs) dlResp =
        ((match dlResp with
          | .failure st => .ok ("Error fetching raw content: " ++ st)
          | .success out => .ok (utf8DecodeReplace out.stdoutBytes)),
         [rawFetchCmd u])) ∧
    (pyTruthy ((lookupKey kvs "download_url").getD .null) = false →
      readFileFromData (.obj kvs) dlResp =
        (.ok "Error: No 'content' key found in response", [])) := by
  constructor
  · intro u hu hne
    have hue : u.isEmpty = false := by
      cases hu2 : u.isEmpty
      · rfl
      · exact absurd ((String.isEmpty_iff u).mp hu2) hne
    unfold readFileFromData
    rw [pyDictGet_obj, hc, pyDictGet_obj, hu]
    simp [pyTruthy, hue]
  · intro hf
    unfold readFileFromData
    rw [pyDictGet_obj, hc, pyDictGet_obj]
    simp [hf]

/-- Witness for C7: a failing fallback fetch and the no-URL case. -/
theorem read_file_no_content_fallback_witness :
    ((lookupKey [("download_url", JVal.str "u")] "content").getD .null = .null) ∧
    readFileFromData (.obj [("download_url", .str "u")]) (.failure "boom") =
      (.ok "Error fetching raw content: boom", [rawFetchCmd "u"]) :=
  ⟨rfl, (read_file_no_content_fallback [("download_url", .str "u")] (.failure "boom")
    rfl).1 "u" rfl (by decide)⟩

/-- C1: list_tree projects a tree-type entry to an object holding only its
path and the kind "directory" (no size key), and every other entry to an
object holding its path, the kind "file" and the reported size; the spec's
kind and size_bytes fields are serialized under the JSON keys "type" and
"bytes".  The include = "dirs" scenario over the two-entry tree returns
the serialization of the resolved ref "main", count 1 and the single
directory entry. -/
theorem list_tree_projection (kvs : List (String × JVal)) :
    ((lookupKey kvs "type").getD .null = .str "tree" →
      projectEntry (.obj kvs) =
        .ok (.obj [("path", (lookupKey kvs "path").getD .null),
                   ("type", .str "directory")])) ∧
    ((lookupKey kvs "type").getD .null ≠ .str "tree" →
      projectEntry (.obj kvs) =
        .ok (.obj [("path", (lookupKey kvs "path").getD .null),
                   ("type", .str "file"),
                   ("bytes", (lookupKey kvs "size").getD .null)])) ∧
    listTreeTool true "acme" "widgets" none none "dirs" (.failure "x")
        (.success ⟨[], .val (.obj [("tree", .arr
          [.obj [("path", .str "lib"), ("type", .str "tree")],
           .obj [("path", .str "lib/a.go"), ("type", .str "blob"), ("size", .int 10)]])])⟩) =
      (.ok "\x7b\"ref\": \"main\", \"count\": 1, \"entries\": [\x7b\"path\": \"lib\", \"type\": \"directory\"\x7d]\x7d",
       [repoMetaCmd "acme" "widgets", treesCmd "acme" "widgets" (.str "main")]) := by
  refine ⟨?_, ?_, ?_⟩
  · intro h
    simp [projectEntry, pyDictGet, h, jvalEq]
  · intro h
    have hf : jvalEq ((lookupKey kvs "type").getD .null) (.str "tree") = false := by
      cases hb : jvalEq ((lookupKey kvs "type").getD .null) (.str "tree")
      · rfl
      · exact absurd ((jvalEq_str_iff _ _).mp hb) h
    simp [projectEntry, pyDictGet, hf]
  · rfl

/-- Witness for C1, evaluating the projection at the two scenario entries. -/
theorem list_tree_projection_witness :
    ((lookupKey [("path", JVal.str "lib"), ("type", JVal.str "tree")] "type").getD .null
        = .str "tree") ∧
    projectEntry (.obj [("path", .str "lib"), ("type", .str "tree")]) =
      .ok (.obj [("path", .str "lib"), ("type", .str "directory")]) ∧
    ((lookupKey [("path", JVal.str "a"), ("type", JVal.str "blob"), ("size", JVal.int 10)]
        "type").getD .null ≠ .str "tree") ∧
    projectEntry (.obj [("path", .str "a"), ("type", .str "blob"), ("size", .int 10)]) =
      .ok (.obj [("path", .str "a"), ("type", .str "file"), ("bytes", .int 10)]) :=
  ⟨rfl,
   (list_tree_projection [("path", .str "lib"), ("type", .str "tree")]).1 rfl,
   by simp [lookupKey],
   (list_tree_projection [("path", .str "a"), ("type", .str "blob"), ("size", .int 10)]).2.1
     (by simp [lookupKey])⟩

/-- Every projected entry is either the directory shape, with no bytes
key, or the file shape, with one. -/
lemma projectEntry_shape (e v : JVal) (h : projectEntry e = .ok v) :
    (∃ p, v = .obj [("path", p), ("type", .str "directory")]) ∨
    (∃ p s, v = .obj [("path", p), ("type", .str "file"), ("bytes", s)]) := by
  unfold projectEntry at h
  rcases e with _ | _ | _ | _ | _ | kvs <;> simp [pyDictGet] at h
  rcases hb : jvalEq ((lookupKey kvs "type").getD .null) (.str "tree") <;>
    simp [hb] at h
  · right; exact ⟨_, _, h.symm⟩
  · left; exact ⟨_, h.symm⟩

/-- The shape disjunction holds for every element of a projected list. -/
lemma projectList_shapes (es vs : List JVal) (h : projectList es = .ok vs) :
    ∀ v ∈ vs,
      (∃ p, v = .obj [("path", p), ("type", .str "directory")]) ∨
      (∃ p s, v = .obj [("path", p), ("type", .str "file"), ("bytes", s)]) := by
  induction es generalizing vs with
  | nil =>
    simp only [projectList, Except.ok.injEq] at h
    subst h
    simp
  | cons e es ih =>
    unfold projectList at h
    rcases he : projectEntry e with ex | v0
    · simp [he] at h
    · simp only [he] at h
      rcases ht : projectList es with ex2 | vs0
      · simp [ht] at h
      · simp only [ht] at h
        rw [Except.ok.injEq] at h
        subst h
        intro v hv
        rcases List.mem_cons.mp hv with rfl | htail
        · exact projectEntry_shape e v he
        · exact ih vs0 ht v htail

/-- A successful listTreeFromData result is a projected entry list. -/
lemma listTreeFromData_ok_project (data : JVal) (path : Option String) (inc : String)
    (mapped : List JVal) (h : listTreeFromData data path inc = .ok (.ok mapped)) :
    ∃ es2, projectList es2 = .ok mapped := by
  unfold listTreeFromData at h
  rcases hc : pyContains data "tree" with ex | b
  · simp [hc] at h
  · simp only [hc] at h
    cases b
    · simp at h
    · rcases hs : pySubscript data "tree" with ex | tv
      · simp [hs] at h
      · simp only [hs] at h
        rcases hl : listTreeEntries tv path inc with ex | m2
        · simp [hl] at h
        · simp only [hl] at h
          have hm : m2 = mapped := by simpa using h
          subst hm
          unfold listTreeEntries at hl
          rcases hi : pyIterate tv with ex | es0
          · simp [hi] at hl
          · simp only [hi] at hl
            rcases h1 : pathFilterStep path es0 with ex | es1
            · simp [h1] at hl
            · simp only [h1] at hl
              rcases h2 : kindFilterStep inc es1 with ex | es2
              · simp [h2] at hl
              · simp only [h2] at hl
                exact ⟨es2, hl⟩

/-- C9: every successful list_tree result has its count field equal to
the length of its entries sequence, and every directory-kind entry lacks
the size key (serialized "bytes") while every file-kind entry has it. -/
theorem list_tree_result_invariants (data : JVal) (path : Option String) (inc : String)
    (rr : JVal) (mapped : List JVal)
    (h : listTreeFromData data path inc = .ok (.ok mapped)) :
    pyDictGet (treeResponseObj rr mapped) "count" .null = .ok (.int (mapped.length : Int)) ∧
    pyDictGet (treeResponseObj rr mapped) "entries" .null = .ok (.arr mapped) ∧
    ∀ m ∈ mapped,
      (pyDictGet m "type" .null = .ok (.str "directory") → hasKey m "bytes" = false) ∧
      (pyDictGet m "type" .null = .ok (.str "file") → hasKey m "bytes" = true) := by
  obtain ⟨es2, hp⟩ := listTreeFromData_ok_project data path inc mapped h
  refine ⟨rfl, rfl, ?_⟩
  intro m hm
  rcases projectList_shapes es2 mapped hp m hm with ⟨p, rfl⟩ | ⟨p, s, rfl⟩
  · constructor
    · intro _; rfl
    · intro hcon; simp [pyDictGet, lookupKey] at hcon
  · constructor
    · intro hcon; simp [pyDictGet, lookupKey] at hcon
    · intro _; rfl

/-- Witness for C9 at a concrete one-directory, one-file tree. -/
theorem list_tree_result_invariants_witness :
    listTreeFromData
        (.obj [("tree", .arr
          [.obj [("path", .str "lib"), ("type", .str "tree")],
           .obj [("path", .str "a"), ("type", .str "blob"), ("size", .int 3)]])])
        none "all" =
      .ok (.ok [.obj [("path", .str "lib"), ("type", .str "directory")],
                .obj [("path", .str "a"), ("type", .str "file"), ("bytes", .int 3)]]) ∧
    ∀ m ∈ [JVal.obj [("path", .str "lib"), ("type", .str "directory")],
           JVal.obj [("path", .str "a"), ("type", .str "file"), ("bytes", .int 3)]],
      (pyDictGet m "type" .null = .ok (.str "directory") → hasKey m "bytes" = false) ∧
      (pyDictGet m "type" .null = .ok (.str "file") → hasKey m "bytes" = true) :=
  ⟨rfl,
   (list_tree_result_invariants
      (.obj [("tree", .arr
        [.obj [("path", .str "lib"), ("type", .str "tree")],
         .obj [("path", .str "a"), ("type", .str "blob"), ("size", .int 3)]])])
      none "all" .null
      [.obj [("path", .str "lib"), ("type", .str "directory")],
       .obj [("path", .str "a"), ("type", .str "file"), ("bytes", .int 3)]]
      rfl).2.2⟩

/-- C8: a list_tree call without a supplied (truthy) ref consults the
default-branch resolver; the resolver yields no value (rather than
raising) on execution failure and on every unparsable or non-object
metadata response, in which case the literal "main" is used; and the ref
field of a returned TreeResult is exactly the resolved ref interpolated
into the tree-fetch command. -/
theorem ref_resolution_and_consistency :
    (∀ st, getDefaultBranch (.failure st) = none) ∧
    (∀ bs m, getDefaultBranch (.success ⟨bs, .decodeError m⟩) = none) ∧
    (∀ bs, getDefaultBranch (.success ⟨bs, .fatal⟩) = none) ∧
    (∀ bs v, (∀ kvs, v ≠ .obj kvs) → getDefaultBranch (.success ⟨bs, .val v⟩) = none) ∧
    (∀ dbResp, getDefaultBranch dbResp = none → resolveRefVal none dbResp = .str "main") ∧
    (∀ owner repo path inc dbResp treeResp,
      (listTreeRun owner repo none path inc dbResp treeResp).2 =
        [repoMetaCmd owner repo, treesCmd owner repo (resolveRefVal none dbResp)]) ∧
    (∀ owner repo ref path inc dbResp bs data mapped,
      listTreeFromData data path inc = .ok (.ok mapped) →
      listTreeRun owner repo ref path inc dbResp (.success ⟨bs, .val data⟩) =
        (.ok (dumps (treeResponseObj (resolveRefVal ref dbResp) mapped)),
         (if refNeedsResolve ref then [repoMetaCmd owner repo] else []) ++
           [treesCmd owner repo (resolveRefVal ref dbResp)])) := by
  refine ⟨fun st => rfl, fun bs m => rfl, fun bs => rfl, ?_, ?_, ?_, ?_⟩
  · intro bs v hne
    rcases v with _ | _ | _ | _ | _ | kvs <;> try rfl
    exact absurd rfl (hne kvs)
  · intro dbResp h
    unfold resolveRefVal branchOrMain
    rw [h]
  · intro owner repo path inc dbResp treeResp
    rcases treeResp with st | ⟨bs, lo⟩
    · rfl
    · rcases lo <;> rfl
  · intro owner repo ref path inc dbResp bs data mapped hfd
    simp [listTreeRun, hfd]

/-- Witness for C8: a non-object metadata body yields none, and a
successful run with a failed resolution uses and reports "main". -/
theorem ref_resolution_witness :
    getDefaultBranch (.success ⟨[], .val (.int 5)⟩) = none ∧
    listTreeRun "o" "r" none none "all" (.failure "e")
        (.success ⟨[], .val (.obj [("tree", .arr [])])⟩) =
      (.ok "\x7b\"ref\": \"main\", \"count\": 0, \"entries\": []\x7d",
       [repoMetaCmd "o" "r", treesCmd "o" "r" (.str "main")]) :=
  ⟨ref_resolution_and_consistency.2.2.2.1 [] (.int 5) (fun _ h => nomatch h),
   ref_resolution_and_consistency.2.2.2.2.2.2 "o" "r" none none "all" (.failure "e")
     [] (.obj [("tree", .arr [])]) [] rfl⟩

/-- Modelled from the spec (C4): the comparison string obtained by
stripping a single leading slash from the path filter. -/
def stripOneSlash (s : String) : String :=
  if pyStartsWith s "/" then String.mk (s.toList.drop 1) else s

/-- The Boolean the path filter tests for an object entry whose path value
is a string (or absent). -/
def entryPathKeeps (pfx : String) (e : JVal) : Bool :=
  match e with
  | .obj kvs =>
    match (lookupKey kvs "path").getD (.str "") with
    | .str s => pyStartsWith s pfx
    | _ => false
  | _ => false

/-- On well-formed entries the path filter is a pure List.filter by the
literal string-prefix test. -/
lemma filterPathList_eq_filter (pfx : String) (es : List JVal)
    (h : ∀ e ∈ es, ∃ kvs s, e = .obj kvs ∧
      (lookupKey kvs "path").getD (.str "") = .str s) :
    filterPathList pfx es = .ok (es.filter (entryPathKeeps pfx)) := by
  induction es with
  | nil => rfl
  | cons e es ih =>
    obtain ⟨kvs, s, rfl, hs⟩ := h e (List.mem_cons_self e es)
    have ih2 := ih (fun x hx => h x (List.mem_cons_of_mem _ hx))
    unfold filterPathList
    rw [pyDictGet_obj, hs, ih2]
    by_cases hsw : pyStartsWith s pfx <;> simp [List.filter_cons, entryPathKeeps, hs, hsw]

/-- C4 counterexample: with the path filter "//src" the code keeps the
entry "src/a.txt" (count 1), although that path does not start with
"/src", which is the filter after a single leading slash is stripped; the
code strips every leading slash. -/
theorem path_filter_counterexample :
    listTreeTool true "o" "r" (some "m") (some "//src") "all" (.failure "d")
        (.success ⟨[], .val (.obj [("tree", .arr
          [.obj [("path", .str "src/a.txt"), ("type", .str "blob"),
                 ("size", .int 1)]])])⟩) =
      (.ok "\x7b\"ref\": \"m\", \"count\": 1, \"entries\": [\x7b\"path\": \"src/a.txt\", \"type\": \"file\", \"bytes\": 1\x7d]\x7d",
       [treesCmd "o" "r" (.str "m")]) ∧
    stripOneSlash "//src" = "/src" ∧
    pyStartsWith "src/a.txt" (stripOneSlash "//src") = false :=
  ⟨rfl, rfl, rfl⟩

/-- C4 amended: the filter string is compared after stripping every
leading slash (str.lstrip("/")), under literal string-prefix semantics: on
well-formed entries exactly those whose path starts with the stripped
filter survive, a leading slash on the filter never changes the
comparison, and the filter "src" matches both "src/a.txt" and
"src2/b.txt". -/
theorem path_filter_lstrip_all (path : String) (es : List JVal)
    (h : ∀ e ∈ es, ∃ kvs s, e = .obj kvs ∧
      (lookupKey kvs "path").getD (.str "") = .str s) :
    filterPathList (pyLstripSlash path) es =
      .ok (es.filter (entryPathKeeps (pyLstripSlash path))) ∧
    (∀ q : String, pyLstripSlash ("/" ++ q) = pyLstripSlash q) ∧
    pyLstripSlash "//src" = "src" ∧
    pyStartsWith "src/a.txt" (pyLstripSlash "src") = true ∧
    pyStartsWith "src2/b.txt" (pyLstripSlash "src") = true := by
  refine ⟨filterPathList_eq_filter _ es h, ?_, rfl, rfl, rfl⟩
  intro q
  unfold pyLstripSlash
  have hd : ("/" ++ q).toList = '/' :: q.toList := by
    show ("/" ++ q).data = '/' :: q.data
    simp [String.data_append]
  rw [hd]
  simp [List.dropWhile]

/-- Witness for C4 amended, at the filter "//src" over one entry. -/
theorem path_filter_lstrip_all_witness :
    filterPathList (pyLstripSlash "//src") [.obj [("path", .str "src/a.txt")]] =
      .ok [.obj [("path", .str "src/a.txt")]] :=
  (path_filter_lstrip_all "//src" [.obj [("path", .str "src/a.txt")]]
    (fun e he => by
      rw [List.mem_singleton] at he
      subst he
      exact ⟨_, "src/a.txt", rfl, rfl⟩)).1

/-- C3 counterexample: for the content "aGVs bG8=" the normalization step
removes nothing (the interior space is kept), and the strict decode is
then attempted on the space-carrying string and fails: whitespace other
than line boundaries is not removed before the strict decode. -/
theorem strip_whitespace_counterexample :
    joinSplitlines "aGVs bG8=" = "aGVs bG8=" ∧
    b64decodePy true "aGVs bG8=" =
      .error (.binasciiError "Only base64 data is allowed") :=
  ⟨rfl, rfl⟩

/-- C3 amended: the normalization removes exactly the line-boundary
characters of str.splitlines (newlines, carriage returns, and the other
boundary code points) and no other whitespace; a payload with an interior
space or tab fails the strict decode, but the lenient fallback discards
such characters, so the pipeline still decodes it to the same text as the
payload without them. -/
theorem strip_line_boundaries_only (s : String) :
    joinSplitlines s = String.mk (s.toList.filter (fun c => ¬ isLineBoundary c)) ∧
    decodeContentPipeline "aGVs bG8=" = .ok "hello" ∧
    decodeContentPipeline "aGVs\tbG8=" = .ok "hello" ∧
    decodeContentPipeline "aGVsbG8=" = .ok "hello" ∧
    decodeContentPipeline "aGVsbG8=\n" = .ok "hello" :=
  ⟨joinSplitlines_eq_filter s, rfl, rfl, rfl, rfl⟩

/-- Decoding a base64 alphabet character recovers its 6-bit value. -/
lemma b64_table_rt : ∀ n, n < 64 → b64CharVal (b64AlphaChar n) = some n := by decide

/-- Base64 alphabet characters are not padding, are ASCII, and are not
line boundaries. -/
lemma b64_alpha_tame : ∀ n, n < 64 →
    (¬ b64AlphaChar n = '=' ∧ (b64AlphaChar n).toNat ≤ 127 ∧
      isLineBoundary (b64AlphaChar n) = false) := by decide

/-- The strict a2b loop inverts the encoder. -/
lemma a2bLoop_encode (bs : List Nat) (h : ∀ b ∈ bs, b < 256) :
    a2bLoop true (b64encodeBytes bs) 0 0 0 false = .ok bs := by
  induction bs using b64encodeBytes.induct with
  | case1 a b c rest ih =>
    have ha : a < 256 := h a (by simp)
    have hb : b < 256 := h b (by simp)
    have hc : c < 256 := h c (by simp)
    have ih2 := ih (fun x hx => h x (by simp [hx]))
    have t1 := b64_table_rt (a / 4) (by omega)
    have t2 := b64_table_rt (a % 4 * 16 + b / 16) (by omega)
    have t3 := b64_table_rt (b % 16 * 4 + c / 64) (by omega)
    have t4 := b64_table_rt (c % 64) (by omega)
    have n1 := (b64_alpha_tame (a / 4) (by omega)).1
    have n2 := (b64_alpha_tame (a % 4 * 16 + b / 16) (by omega)).1
    have n3 := (b64_alpha_tame (b % 16 * 4 + c / 64) (by omega)).1
    have n4 := (b64_alpha_tame (c % 64) (by omega)).1
    rw [b64encodeBytes]
    simp [a2bLoop, n1, n2, n3, n4, t1, t2, t3, t4, ih2, Except.map]
    omega
  | case2 a b =>
    have ha : a < 256 := h a (by simp)
    have hb : b < 256 := h b (by simp)
    have t1 := b64_table_rt (a / 4) (by omega)
    have t2 := b64_table_rt (a % 4 * 16 + b / 16) (by omega)
    have t3 := b64_table_rt (b % 16 * 4) (by omega)
    have n1 := (b64_alpha_tame (a / 4) (by omega)).1
    have n2 := (b64_alpha_tame (a % 4 * 16 + b / 16) (by omega)).1
    have n3 := (b64_alpha_tame (b % 16 * 4) (by omega)).1
    rw [b64encodeBytes]
    simp [a2bLoop, n1, n2, n3, t1, t2, t3, Except.map]
    omega
  | case3 a =>
    have ha : a < 256 := h a (by simp)
    have t1 := b64_table_rt (a / 4) (by omega)
    have t2 := b64_table_rt (a % 4 * 16) (by omega)
    have n1 := (b64_alpha_tame (a / 4) (by omega)).1
    have n2 := (b64_alpha_tame (a % 4 * 16) (by omega)).1
    rw [b64encodeBytes]
    simp [a2bLoop, n1, n2, t1, t2, Except.map]
    omega
  | case4 => rfl

/-- Every character the encoder emits is ASCII and not a line boundary. -/
lemma b64encode_mem_tame (bs : List Nat) (h : ∀ b ∈ bs, b < 256) :
    ∀ c ∈ b64encodeBytes bs, c.toNat ≤ 127 ∧ isLineBoundary c = false := by
  induction bs using b64encodeBytes.induct with
  | case1 a b c rest ih =>
    have ha : a < 256 := h a (by simp)
    have hb : b < 256 := h b (by simp)
    have hc : c < 256 := h c (by simp)
    have ih2 := ih (fun x hx => h x (by simp [hx]))
    intro ch hch
    rw [b64encodeBytes] at hch
    simp only [List.mem_cons] at hch
    rcases hch with rfl | rfl | rfl | rfl | hm
    · exact (b64_alpha_tame _ (by omega)).2
    · exact (b64_alpha_tame _ (by omega)).2
    · exact (b64_alpha_tame _ (by omega)).2
    · exact (b64_alpha_tame _ (by omega)).2
    · exact ih2 ch hm
  | case2 a b =>
    have ha : a < 256 := h a (by simp)
    have hb : b < 256 := h b (by simp)
    intro ch hch
    rw [b64encodeBytes] at hch
    simp only [List.mem_cons, List.mem_singleton, List.not_mem_nil, or_false] at hch
    rcases hch with rfl | rfl | rfl | rfl
    · exact (b64_alpha_tame _ (by omega)).2
    · exact (b64_alpha_tame _ (by omega)).2
    · exact (b64_alpha_tame _ (by omega)).2
    · exact ⟨by decide, by decide⟩
  | case3 a =>
    have ha : a < 256 := h a (by simp)
    intro ch hch
    rw [b64encodeBytes] at hch
    simp only [List.mem_cons, List.mem_singleton, List.not_mem_nil, or_false] at hch
    rcases hch with rfl | rfl | rfl | rfl
    · exact (b64_alpha_tame _ (by omega)).2
    · exact (b64_alpha_tame _ (by omega)).2
    · exact ⟨by decide, by decide⟩
    · exact ⟨by decide, by decide⟩
  | case4 => intro ch hch; cases hch

/-- The encoder output never begins with a padding character. -/
lemma b64encode_head_ne (bs : List Nat) (h : ∀ b ∈ bs, b < 256) :
    ¬ (b64encodeBytes bs).head? = some '=' := by
  rcases bs with _ | ⟨a, _ | ⟨b, _ | ⟨c, r⟩⟩⟩
  · simp [b64encodeBytes]
  · have ha : a < 256 := h a (by simp)
    simpa [b64encodeBytes] using (b64_alpha_tame (a / 4) (by omega)).1
  · have ha : a < 256 := h a (by simp)
    simpa [b64encodeBytes] using (b64_alpha_tame (a / 4) (by omega)).1
  · have ha : a < 256 := h a (by simp)
    simpa [b64encodeBytes] using (b64_alpha_tame (a / 4) (by omega)).1

/-- The strict decode inverts the encoder. -/
lemma b64decode_encode (bs : List Nat) (h : ∀ b ∈ bs, b < 256) :
    b64decodePy true (b64encodeStr bs) = .ok bs := by
  unfold b64decodePy b64encodeStr
  have hlist : (String.mk (b64encodeBytes bs)).toList = b64encodeBytes bs := rfl
  rw [hlist]
  have hall : (b64encodeBytes bs).all (fun c => c.toNat ≤ 127) = true :=
    List.all_eq_true.mpr (fun c hc => by simpa using (b64encode_mem_tame bs h c hc).1)
  simp [hall, b64encode_head_ne bs h, a2bLoop_encode bs h]

/-- The whole decode pipeline inverts the encoder, ending in the
permissive byte decode. -/
lemma decodeContentPipeline_encode (bs : List Nat) (h : ∀ b ∈ bs, b < 256) :
    decodeContentPipeline (b64encodeStr bs) = .ok (utf8DecodeReplace bs) := by
  have hnb : joinSplitlines (b64encodeStr bs) = b64encodeStr bs := by
    rw [joinSplitlines_eq_filter]
    unfold b64encodeStr
    congr 1
    exact List.filter_eq_self.mpr
      (fun c hc => by simpa using (b64encode_mem_tame bs h c hc).2)
  simp only [decodeContentPipeline]
  rw [hnb, b64decode_encode bs h]

/-- C6: presenting the base64 encoding of any byte sequence as the
content field, with encoding "base64", makes the structured decode
pipeline of read_file return exactly those bytes decoded as text; in
particular the content "aGVsbG8=\n" yields "hello". -/
theorem base64_roundtrip (bs : List Nat) (h : ∀ b ∈ bs, b < 256) (dlResp : GhResult) :
    readFileFromData (.obj [("content", .str (b64encodeStr bs)),
        ("encoding", .str "base64")]) dlResp =
      (.ok (utf8DecodeReplace bs), []) ∧
    readFileTool true "acme" "widgets" "/README.md" none false
        (.success ⟨[], .val (.obj [("content", .str "aGVsbG8=\n"),
          ("encoding", .str "base64")])⟩) (.failure "") =
      (.ok "hello", [["repos/acme/widgets/contents//README.md"]]) := by
  constructor
  · unfold readFileFromData
    simp [pyDictGet, lookupKey, jvalEq, decodeContentPipeline_encode bs h]
  · rfl

/-- Witness for C6 at the bytes of "hello". -/
theorem base64_roundtrip_witness :
    readFileFromData (.obj [("content", .str (b64encodeStr [104, 101, 108, 108, 111])),
        ("encoding", .str "base64")]) (.failure "") = (.ok "hello", []) :=
  (base64_roundtrip [104, 101, 108, 108, 111] (by decide) (.failure "")).1

/-- C2 counterexample: a tree-fetch response whose JSON body is the
number 5 makes list_tree raise a TypeError at the membership test
"tree" not in data, and a contents response whose body is a JSON array
makes read_file raise an AttributeError at data.get: not every executor
response yields a string result. -/
theorem string_result_counterexample :
    listTreeTool true "o" "r" (some "m") none "all" (.failure "")
        (.success ⟨[], .val (.int 5)⟩) =
      (.error .typeError, [treesCmd "o" "r" (.str "m")]) ∧
    readFileTool true "o" "r" "p" none false
        (.success ⟨[], .val (.arr [])⟩) (.failure "") =
      (.error .attributeError, [["repos/o/r/contents//p"]]) :=
  ⟨rfl, rfl⟩

/-- Truthiness of the path parameter of list_tree. -/
def pathTruthy : Option String → Bool
  | some s => ¬ s.isEmpty
  | none => false

/-- Well-formedness of one tree entry for exception-freedom: an object
whose path value, when a path filter applies, is a string or absent. -/
def wfEntry (pathGiven : Bool) (e : JVal) : Bool :=
  match e with
  | .obj kvs =>
    if pathGiven then
      match (lookupKey kvs "path").getD (.str "") with
      | .str _ => true
      | _ => false
    else true
  | _ => false

/-- Well-formedness of a parsed tree body: an object whose tree field, if
present, is an array of well-formed entries. -/
def wfTreeData (pathGiven : Bool) (data : JVal) : Bool :=
  match data with
  | .obj kvs =>
    match lookupKey kvs "tree" with
    | some (.arr es) => es.all (wfEntry pathGiven)
    | some _ => false
    | none => true
  | _ => false

/-- Well-formedness of a tree-fetch response: execution failures and JSON
decode errors are handled; a parsed body must be well-formed; an exception
other than a JSONDecodeError from the parse is excluded. -/
def wfTreeResp (pathGiven : Bool) : GhResult → Bool
  | .failure _ => true
  | .success out =>
    match out.loads with
    | .val data => wfTreeData pathGiven data
    | .decodeError _ => true
    | .fatal => false

/-- Well-formedness of a parsed contents body: an object whose content
value is null or absent (in which case the download URL, when truthy,
must be a string), or a string whose normalization is ASCII. -/
def wfFileData (data : JVal) : Bool :=
  match data with
  | .obj kvs =>
    match (lookupKey kvs "content").getD .null with
    | .null =>
      (match (lookupKey kvs "download_url").getD .null with
       | .str _ => true
       | v => ¬ pyTruthy v)
    | .str c => (joinSplitlines c).toList.all (fun ch => ch.toNat ≤ 127)
    | _ => false
  | _ => false

/-- Well-formedness of a contents-fetch response in structured mode. -/
def wfFileResp : GhResult → Bool
  | .failure _ => true
  | .success out =>
    match out.loads with
    | .val data => wfFileData data
    | .decodeError _ => true
    | .fatal => false

/-- A well-formed entry is an object. -/
lemma wfEntry_obj (pg : Bool) (e : JVal) (h : wfEntry pg e = true) :
    ∃ kvs, e = .obj kvs := by
  cases e with
  | obj kvs => exact ⟨kvs, rfl⟩
  | null => simp [wfEntry] at h
  | bool b => simp [wfEntry] at h
  | int n => simp [wfEntry] at h
  | str s => simp [wfEntry] at h
  | arr xs => simp [wfEntry] at h

/-- A path-filter-well-formed entry has the shape the filter
characterization requires. -/
lemma wfEntry_path_shape (e : JVal) (h : wfEntry true e = true) :
    ∃ kvs s, e = .obj kvs ∧ (lookupKey kvs "path").getD (.str "") = .str s := by
  obtain ⟨kvs, rfl⟩ := wfEntry_obj true e h
  simp only [wfEntry, if_true] at h
  rcases hv : (lookupKey kvs "path").getD (.str "") with _ | b | n | s | xs | kvs2 <;>
    rw [hv] at h <;> simp at h
  exact ⟨kvs, s, rfl, hv⟩

/-- The path filter stage succeeds on well-formed entries and keeps a
subset of them. -/
lemma pathFilterStep_ok (path : Option String) (es : List JVal)
    (h : ∀ e ∈ es, wfEntry (pathTruthy path) e = true) :
    ∃ kept, pathFilterStep path es = .ok kept ∧ ∀ e ∈ kept, e ∈ es := by
  cases path with
  | none => exact ⟨es, rfl, fun e he => he⟩
  | some s =>
    by_cases hs : s.isEmpty
    · exact ⟨es, by simp [pathFilterStep, hs], fun e he => he⟩
    · have hW : ∀ e ∈ es, wfEntry true e = true := by
        intro e he
        have h2 := h e he
        simpa [pathTruthy, hs] using h2
      have hf := filterPathList_eq_filter (pyLstripSlash s) es
        (fun e he => wfEntry_path_shape e (hW e he))
      refine ⟨es.filter (entryPathKeeps (pyLstripSlash s)), ?_, ?_⟩
      · simpa [pathFilterStep, hs] using hf
      · exact fun e he => List.mem_of_mem_filter he

/-- The kind filter succeeds on object entries and keeps a subset. -/
lemma filterTypeList_ok (t : String) (es : List JVal)
    (h : ∀ e ∈ es, ∃ kvs, e = .obj kvs) :
    ∃ kept, filterTypeList t es = .ok kept ∧ ∀ e ∈ kept, e ∈ es := by
  induction es with
  | nil => exact ⟨[], rfl, fun e he => he⟩
  | cons e es ih =>
    obtain ⟨kvs, rfl⟩ := h e (List.mem_cons_self e es)
    obtain ⟨kept, hk, hsub⟩ := ih (fun x hx => h x (List.mem_cons_of_mem _ hx))
    by_cases hc : jvalEq ((lookupKey kvs "type").getD .null) (.str t) = true
    · refine ⟨.obj kvs :: kept, ?_, ?_⟩
      · unfold filterTypeList
        rw [pyDictGet_obj, hk]
        simp [hc]
      · intro x hx
        rcases List.mem_cons.mp hx with rfl | hx2
        · exact List.mem_cons_self _ _
        · exact List.mem_cons_of_mem _ (hsub x hx2)
    · refine ⟨kept, ?_, fun x hx => List.mem_cons_of_mem _ (hsub x hx)⟩
      unfold filterTypeList
      rw [pyDictGet_obj, hk]
      simp [hc]

/-- The kind-filter stage succeeds on object entries and keeps a subset. -/
lemma kindFilterStep_ok (inc : String) (es : List JVal)
    (h : ∀ e ∈ es, ∃ kvs, e = .obj kvs) :
    ∃ kept, kindFilterStep inc es = .ok kept ∧ ∀ e ∈ kept, e ∈ es := by
  unfold kindFilterStep
  by_cases h1 : inc = "files"
  · simpa [h1] using filterTypeList_ok "blob" es h
  · by_cases h2 : inc = "dirs"
    · simpa [h1, h2] using filterTypeList_ok "tree" es h
    · exact ⟨es, by simp [h1, h2], fun e he => he⟩

/-- The projection of an object entry always succeeds. -/
lemma projectEntry_obj_ok (kvs : List (String × JVal)) :
    ∃ v, projectEntry (.obj kvs) = .ok v := by
  unfold projectEntry
  rw [pyDictGet_obj]
  by_cases hc : jvalEq ((lookupKey kvs "type").getD .null) (.str "tree") = true <;>
    simp [hc, pyDictGet_obj]

/-- The projection loop succeeds on object entries. -/
lemma projectList_ok (es : List JVal) (h : ∀ e ∈ es, ∃ kvs, e = .obj kvs) :
    ∃ vs, projectList es = .ok vs := by
  induction es with
  | nil => exact ⟨[], rfl⟩
  | cons e es ih =>
    obtain ⟨kvs, rfl⟩ := h e (List.mem_cons_self e es)
    obtain ⟨vs, hvs⟩ := ih (fun x hx => h x (List.mem_cons_of_mem _ hx))
    obtain ⟨v, hv⟩ := projectEntry_obj_ok kvs
    exact ⟨v :: vs, by simp [projectList, hv, hvs]⟩

/-- list_tree handling of a well-formed parsed body never raises. -/
lemma listTreeFromData_ok (data : JVal) (path : Option String) (inc : String)
    (h : wfTreeData (pathTruthy path) data = true) :
    ∃ r, listTreeFromData data path inc = .ok r := by
  rcases data with _ | b | n | s | xs | kvs
  · simp [wfTreeData] at h
  · simp [wfTreeData] at h
  · simp [wfTreeData] at h
  · simp [wfTreeData] at h
  · simp [wfTreeData] at h
  · rcases hl : lookupKey kvs "tree" with _ | tv
    · exact ⟨.error (dumps (noTreeObj (.obj kvs))),
        by simp [listTreeFromData, pyContains, hl]⟩
    · rcases tv with _ | b | n | s | es | kvs2 <;> simp only [wfTreeData, hl] at h
      · simp at h
      · simp at h
      · simp at h
      · simp at h
      · have hAll : ∀ e ∈ es, wfEntry (pathTruthy path) e = true := by
          simpa [List.all_eq_true] using h
        obtain ⟨k1, hk1, hsub1⟩ := pathFilterStep_ok path es hAll
        have hobj1 : ∀ e ∈ k1, ∃ kvs2, e = .obj kvs2 :=
          fun e he => wfEntry_obj _ e (hAll e (hsub1 e he))
        obtain ⟨k2, hk2, hsub2⟩ := kindFilterStep_ok inc k1 hobj1
        obtain ⟨vs, hvs⟩ := projectList_ok k2 (fun e he => hobj1 e (hsub2 e he))
        refine ⟨.ok vs, ?_⟩
        simp [listTreeFromData, pyContains, hl, pySubscript, listTreeEntries,
          pyIterate, hk1, hk2, hvs]
      · simp at h

/-- An error out of Except.map is an error of the mapped value. -/
lemma except_map_error {α β : Type} (x : Except PyExn α) (f : α → β) (ex : PyExn)
    (h : x.map f = .error ex) : x = .error ex := by
  cases x <;> simp_all [Except.map]

/-- Every error of the a2b loop is a binascii.Error. -/
lemma a2bLoop_error_binascii (strict : Bool) (cs : List Char) :
    ∀ qp left pads ps ex, a2bLoop strict cs qp left pads ps = .error ex →
      ∃ m, ex = .binasciiError m := by
  induction cs with
  | nil =>
    intro qp left pads ps ex h
    simp only [a2bLoop] at h
    split_ifs at h
    · injection h with h2; exact ⟨_, h2.symm⟩
    · injection h with h2; exact ⟨_, h2.symm⟩
  | cons c cs ih =>
    intro qp left pads ps ex h
    simp only [a2bLoop] at h
    by_cases hpad : c = '='
    · simp only [if_pos hpad] at h
      by_cases h2 : 2 ≤ qp
      · simp only [if_pos h2] at h
        by_cases h4 : 4 ≤ qp + (pads + 1)
        · simp only [if_pos h4] at h
          by_cases hstr : strict = true ∧ ¬ cs = []
          · simp only [if_pos hstr] at h
            injection h with h5; exact ⟨_, h5.symm⟩
          · simp only [if_neg hstr] at h
            exact absurd h (by simp)
        · simp only [if_neg h4] at h
          exact ih _ _ _ _ _ h
      · simp only [if_neg h2] at h
        exact ih _ _ _ _ _ h
    · simp only [if_neg hpad] at h
      rcases hbv : b64CharVal c with _ | v <;> simp only [hbv] at h
      · by_cases hstr : strict = true
        · rw [if_pos hstr] at h
          injection h with h5; exact ⟨_, h5.symm⟩
        · rw [if_neg hstr] at h
          exact ih _ _ _ _ _ h
      · by_cases hsp : strict = true ∧ ps = true
        · rw [if_pos hsp] at h
          injection h with h5; exact ⟨_, h5.symm⟩
        · rw [if_neg hsp] at h
          rcases qp with _ | _ | _ | qp3
          · exact ih _ _ _ _ _ h
          · exact ih _ _ _ _ _ (except_map_error _ _ _ h)
          · exact ih _ _ _ _ _ (except_map_error _ _ _ h)
          · exact ih _ _ _ _ _ (except_map_error _ _ _ h)

/-- Every error of b64decode on an ASCII string is a binascii.Error. -/
lemma b64decodePy_error_binascii (validate : Bool) (s : String) (ex : PyExn)
    (hA : s.toList.all (fun c => c.toNat ≤ 127) = true)
    (h : b64decodePy validate s = .error ex) : ∃ m, ex = .binasciiError m := by
  unfold b64decodePy at h
  rw [hA] at h
  rw [if_neg (show ¬ ¬ (true = true) by simp)] at h
  by_cases hh : validate = true ∧ s.toList.head? = some '='
  · rw [if_pos hh] at h
    injection h with h2
    exact ⟨_, h2.symm⟩
  · rw [if_neg hh] at h
    exact a2bLoop_error_binascii validate s.toList 0 0 0 false ex h

/-- The two-stage decode pipeline never raises on an ASCII-normalizing
content string. -/
lemma decodeContentPipeline_ok (c : String)
    (hA : (joinSplitlines c).toList.all (fun ch => ch.toNat ≤ 127) = true) :
    ∃ s, decodeContentPipeline c = .ok s := by
  simp only [decodeContentPipeline]
  rcases h1 : b64decodePy true (joinSplitlines c) with ex | bs
  · obtain ⟨m, rfl⟩ := b64decodePy_error_binascii true _ ex hA h1
    rcases h2 : b64decodePy false (joinSplitlines c) with ex2 | bs2
    · obtain ⟨m2, rfl⟩ := b64decodePy_error_binascii false _ ex2 hA h2
      exact ⟨"Error decoding base64: " ++ pyExnStr (.binasciiError m2), by simp [h1, h2]⟩
    · exact ⟨utf8DecodeReplace bs2, by simp [h1, h2]⟩
  · exact ⟨utf8DecodeReplace bs, by simp [h1]⟩

/-- read_file handling of a well-formed parsed body never raises. -/
lemma readFileFromData_ok (data : JVal) (dlResp : GhResult) (h : wfFileData data = true) :
    ∃ s, (readFileFromData data dlResp).1 = .ok s := by
  rcases data with _ | b | n | s0 | xs | kvs
  · simp [wfFileData] at h
  · simp [wfFileData] at h
  · simp [wfFileData] at h
  · simp [wfFileData] at h
  · simp [wfFileData] at h
  · rcases hc : (lookupKey kvs "content").getD .null with _ | b | n | cstr | xs | kvs2
    · -- content is null or absent
      simp only [wfFileData, hc] at h
      rcases hu : (lookupKey kvs "download_url").getD .null with _ | b2 | n2 | u | xs2 | kvs3
      · exact ⟨"Error: No 'content' key found in response",
          by simp [readFileFromData, pyDictGet_obj, hc, hu, pyTruthy]⟩
      · rw [hu] at h
        have hb : pyTruthy (.bool b2) = false := by simpa using h
        exact ⟨"Error: No 'content' key found in response",
          by simp [readFileFromData, pyDictGet_obj, hc, hu, hb]⟩
      · rw [hu] at h
        have hb : pyTruthy (.int n2) = false := by simpa using h
        exact ⟨"Error: No 'content' key found in response",
          by simp [readFileFromData, pyDictGet_obj, hc, hu, hb]⟩
      · by_cases hemp : u.isEmpty = true
        · exact ⟨"Error: No 'content' key found in response",
            by simp [readFileFromData, pyDictGet_obj, hc, hu, pyTruthy, hemp]⟩
        · rcases dlResp with st | out
          · exact ⟨"Error fetching raw content: " ++ st,
              by simp [readFileFromData, pyDictGet_obj, hc, hu, pyTruthy, hemp]⟩
          · exact ⟨utf8DecodeReplace out.stdoutBytes,
              by simp [readFileFromData, pyDictGet_obj, hc, hu, pyTruthy, hemp]⟩
      · rw [hu] at h
        have hb : pyTruthy (.arr xs2) = false := by simpa using h
        exact ⟨"Error: No 'content' key found in response",
          by simp [readFileFromData, pyDictGet_obj, hc, hu, hb]⟩
      · rw [hu] at h
        have hb : pyTruthy (.obj kvs3) = false := by simpa using h
        exact ⟨"Error: No 'content' key found in response",
          by simp [readFileFromData, pyDictGet_obj, hc, hu, hb]⟩
    · simp [wfFileData, hc] at h
    · simp [wfFileData, hc] at h
    · -- content is a string
      have hA : (joinSplitlines cstr).toList.all (fun ch => ch.toNat ≤ 127) = true := by
        have h2 := h
        simp only [wfFileData, hc] at h2
        exact h2
      by_cases henc : ¬ jvalEq ((lookupKey kvs "encoding").getD .null) .null = true ∧
          ¬ jvalEq ((lookupKey kvs "encoding").getD .null) (.str "base64") = true
      · exact ⟨"Error: Unexpected encoding '" ++
            pyStr ((lookupKey kvs "encoding").getD .null) ++ "'",
          by simp [readFileFromData, pyDictGet_obj, hc, henc]⟩
      · obtain ⟨sres, hs⟩ := decodeContentPipeline_ok cstr hA
        refine ⟨sres, ?_⟩
        have hd : jvalEq ((lookupKey kvs "encoding").getD .null) .null = true ∨
            jvalEq ((lookupKey kvs "encoding").getD .null) (.str "base64") = true := by
          by_contra hcon
          push_neg at hcon
          exact henc ⟨by simp [hcon.1], by simp [hcon.2]⟩
        rcases hd with hd | hd <;>
          simp [readFileFromData, pyDictGet_obj, hc, hd, hs]
    · simp [wfFileData, hc] at h
    · simp [wfFileData, hc] at h

/-- C2 amended: list_tree and read_file return a string for every
executor response whose parsed JSON body has the shapes the code expects
(list_tree: an object whose tree field, when present, is an array of
objects with string-or-absent path values; read_file: an object whose
content is a string with ASCII normalization, or null/absent with the
download URL a string or falsy; in both: json.loads raises nothing beyond
a JSONDecodeError); raw-mode read_file always returns a string.  Outside
these shapes an uncaught TypeError or AttributeError propagates, as the
counterexample shows. -/
theorem operations_return_strings :
    (∀ authed owner repo ref path inc dbResp treeResp,
      wfTreeResp (pathTruthy path) treeResp = true →
      ∃ s, (listTreeTool authed owner repo ref path inc dbResp treeResp).1 = .ok s) ∧
    (∀ authed owner repo p ref mainResp dlResp,
      wfFileResp mainResp = true →
      ∃ s, (readFileTool authed owner repo p ref false mainResp dlResp).1 = .ok s) ∧
    (∀ authed owner repo p ref mainResp dlResp,
      ∃ s, (readFileTool authed owner repo p ref true mainResp dlResp).1 = .ok s) := by
  refine ⟨?_, ?_, ?_⟩
  · intro authed owner repo ref path inc dbResp treeResp hwf
    cases authed
    · exact ⟨"Error: User is not authenticated", rfl⟩
    · rcases treeResp with st | ⟨bs, lo⟩
      · exact ⟨"Error running gh command: " ++ st, by simp [listTreeTool, listTreeRun]⟩
      · rcases lo with data | m | _
        · have hd : wfTreeData (pathTruthy path) data = true := by
            simpa [wfTreeResp] using hwf
          obtain ⟨r, hr⟩ := listTreeFromData_ok data path inc hd
          rcases r with es | mapped
          · exact ⟨es, by simp [listTreeTool, listTreeRun, hr]⟩
          · exact ⟨dumps (treeResponseObj (resolveRefVal ref dbResp) mapped),
              by simp [listTreeTool, listTreeRun, hr]⟩
        · exact ⟨"Error decoding JSON: " ++ m, by simp [listTreeTool, listTreeRun]⟩
        · simp [wfTreeResp] at hwf
  · intro authed owner repo p ref mainResp dlResp hwf
    cases authed
    · exact ⟨"Error: User is not authenticated", rfl⟩
    · rcases mainResp with st | ⟨bs, lo⟩
      · exact ⟨"Error running gh command: " ++ st, by simp [readFileTool, readFileRun]⟩
      · rcases lo with data | m | _
        · have hd : wfFileData data = true := by simpa [wfFileResp] using hwf
          obtain ⟨s, hs⟩ := readFileFromData_ok data dlResp hd
          exact ⟨s, by simp [readFileTool, readFileRun, hs]⟩
        · exact ⟨"Error decoding JSON: " ++ m, by simp [readFileTool, readFileRun]⟩
        · simp [wfFileResp] at hwf
  · intro authed owner repo p ref mainResp dlResp
    cases authed
    · exact ⟨"Error: User is not authenticated", rfl⟩
    · rcases mainResp with st | out
      · exact ⟨"Error running gh command: " ++ st, by simp [readFileTool, readFileRun]⟩
      · exact ⟨utf8DecodeReplace out.stdoutBytes, by simp [readFileTool, readFileRun]⟩

/-- Witness for C2 amended at well-formed concrete responses. -/
theorem operations_return_strings_witness :
    wfTreeResp (pathTruthy none) (.success ⟨[], .val (.obj [("tree", .arr [])])⟩) = true ∧
    (∃ s, (listTreeTool true "o" "r" none none "all" (.failure "")
      (.success ⟨[], .val (.obj [("tree", .arr [])])⟩)).1 = .ok s) ∧
    wfFileResp (.success ⟨[], .val (.obj [("content", .str "aGVsbG8=")])⟩) = true ∧
    (∃ s, (readFileTool true "o" "r" "p" none false
      (.success ⟨[], .val (.obj [("content", .str "aGVsbG8=")])⟩) (.failure "")).1 = .ok s) ∧
    (∃ s, (readFileTool true "o" "r" "p" none true (.failure "x") (.failure "")).1 = .ok s) :=
  ⟨rfl,
   operations_return_strings.1 true "o" "r" none none "all" (.failure "")
     (.success ⟨[], .val (.obj [("tree", .arr [])])⟩) rfl,
   rfl,
   operations_return_strings.2.1 true "o" "r" "p" none
     (.success ⟨[], .val (.obj [("content", .str "aGVsbG8=")])⟩) (.failure "") rfl,
   operations_return_strings.2.2 true "o" "r" "p" none (.failure "x") (.failure "")⟩

end GhApi
